import Mathlib

/-!
Verification of the apple-sales-bot sales pipeline (src/index.js).

The JavaScript source is shallowly embedded: report cells are optional
strings (a trimmed-empty cell becomes null, modelled as `none`), JS
numbers are modelled as exact rationals (the report values are short
decimal literals, far below any double-precision limit), JS objects
keyed by app identifier are association lists built in insertion order
with unique keys, and the promise pipeline of getSalesForDate is an
Except-valued function over the outcomes of the three report fetches.
-/

set_option maxRecDepth 100000
set_option maxHeartbeats 1000000

/-- Report cell after `cell.trim() || null` in getDailySales: `none` is JS
null (or an out-of-range/undefined read), `some s` a nonempty trimmed string. -/
abbrev Cell := Option String

/-- Report row: the list of its cells. -/
abbrev Row := List Cell

/-- INSTALL_TYPES from src/index.js line 6. -/
def INSTALL_TYPES : List String := ["1", "1F", "1T", "F1", "1E", "1EP", "1EU"]

/-- IAP_TYPES from src/index.js line 7. -/
def IAP_TYPES : List String := ["IA1", "IA9", "IAY", "IAC", "FI1"]

/-- MAX_ATTACHMENTS from src/index.js line 8. -/
def MAX_ATTACHMENTS : Nat := 20

/-- NO_REPORT_ERRORS from src/index.js line 9 (report not yet published). -/
def NO_REPORT_ERRORS : List Int := [210, 211, 212]

/-- ERR_NO_SALES from src/index.js line 10. -/
def ERR_NO_SALES : Int := 213

/-- INSTALL_TYPES.has(type): false for a null cell, membership for a string. -/
def isInstallType (c : Cell) : Bool :=
  match c with
  | some s => INSTALL_TYPES.contains s
  | none => false

/-- IAP_TYPES.has(type). -/
def isIAPType (c : Cell) : Bool :=
  match c with
  | some s => IAP_TYPES.contains s
  | none => false

/-- Digit list to the natural number it denotes. -/
def digitsToNat (l : List Char) : Nat :=
  l.foldl (fun acc c => acc * 10 + (c.toNat - '0'.toNat)) 0

/-- Number(s) for the decimal literals that occur in sales reports:
an optional sign followed by digits with an optional fractional part,
such as "3", "-5", "0.99", "5.", ".5". Any other string is NaN (`none`).
The exotic shapes Number also accepts (exponents, hex, infinities) never
occur in Apple sales report cells and are not modelled. -/
def parseJSNumber (s : String) : Option ℚ :=
  let cs := s.data
  let signRest : ℚ × List Char :=
    match cs with
    | '-' :: t => (-1, t)
    | '+' :: t => (1, t)
    | _ => (1, cs)
  let sign := signRest.1
  let rest := signRest.2
  let ip := rest.takeWhile Char.isDigit
  let rest2 := rest.dropWhile Char.isDigit
  match rest2 with
  | [] => if ip.isEmpty then none else some (sign * (digitsToNat ip : ℚ))
  | '.' :: fr =>
    if fr.all Char.isDigit && !(ip.isEmpty && fr.isEmpty) then
      some (sign * ((digitsToNat ip : ℚ) + (digitsToNat fr : ℚ) / (10 : ℚ) ^ fr.length))
    else none
  | _ => none

/-- Number(cell) || 0 on a report cell: Number(null) is 0, an unparseable
string is NaN which the || turns into 0, and an out-of-range read
(undefined) gives NaN || 0 = 0 as well. -/
def cellNum (c : Cell) : ℚ :=
  match c with
  | none => 0
  | some s => (parseJSNumber s).getD 0

/-- Array.prototype.indexOf with strict equality: the index of the first
cell equal to `c`, or -1. -/
def jsIndexOfFrom : Row → Cell → Nat → Int
  | [], _, _ => -1
  | c' :: rest, c, i => if c' = c then (i : Int) else jsIndexOfFrom rest c (i + 1)

/-- header.indexOf(name) from parseSalesReport. -/
def jsIndexOf (l : Row) (c : Cell) : Int := jsIndexOfFrom l c 0

/-- row[i] for a possibly negative or out-of-range JS index: undefined
reads are conflated with null cells as `none` (Number and the rate lookup
treat both the same way on the inputs that occur). -/
def jsIndex (row : Row) (i : Int) : Cell :=
  if 0 ≤ i then row.getD i.toNat none else none

/-- Column indices resolved from the header row, src/index.js lines 151-158. -/
structure ColumnIndices where
  idxAppID : Int
  idxCountry : Int
  idxCurrency : Int
  idxTitle : Int
  idxUnits : Int
  idxRevenue : Int
  idxType : Int
deriving Repr, DecidableEq

/-- Header resolution in parseSalesReport, src/index.js lines 151-158. -/
def resolveIndices (header : Row) : ColumnIndices where
  idxAppID := jsIndexOf header (some "Apple Identifier")
  idxCountry := jsIndexOf header (some "Country Code")
  idxCurrency := jsIndexOf header (some "Currency of Proceeds")
  idxTitle := jsIndexOf header (some "Title")
  idxUnits := jsIndexOf header (some "Units")
  idxRevenue := jsIndexOf header (some "Developer Proceeds")
  idxType := jsIndexOf header (some "Product Type Identifier")

/-- Exchange rate table: the JS rates object, currency code to units per USD. -/
abbrev Rates := List (String × ℚ)

/-- rates[c] for a string key. -/
def lookupRateStr : Rates → String → Option ℚ
  | [], _ => none
  | (c, r) :: rest, k => if c = k then some r else lookupRateStr rest k

/-- rates[currency]: a null (or undefined) currency cell resolves to no
rate, since the table only carries genuine currency codes. -/
def lookupRate (rates : Rates) (currency : Cell) : Option ℚ :=
  match currency with
  | some c => lookupRateStr rates c
  | none => none

/-- AppSalesRecord: the per-app accumulator object created in
parseSalesReport, src/index.js lines 165-171. -/
structure AppSalesRecord where
  title : Cell
  country : Cell
  icon : Option String
  installs : ℚ
  revenue : ℚ
deriving Repr, DecidableEq

/-- The apps object of parseSalesReport: an association list in insertion
order; keys are unique by construction (a record is only appended when
the key is absent). -/
abbrev AppMap := List (Cell × AppSalesRecord)

/-- apps[appID] read: first entry with the key. -/
def lookupApp : AppMap → Cell → Option AppSalesRecord
  | [], _ => none
  | (k', v) :: rest, k => if k' = k then some v else lookupApp rest k

/-- In-place mutation of the record stored at a key (the JS code mutates
the object it got from the lookup). -/
def updateApp : AppMap → Cell → (AppSalesRecord → AppSalesRecord) → AppMap
  | [], _, _ => []
  | (k', v) :: rest, k, f =>
    if k' = k then (k', f v) :: rest else (k', v) :: updateApp rest k f

/-- The fresh record built at src/index.js lines 165-171 for a first-seen
app identifier. -/
def freshRecord (idx : ColumnIndices) (row : Row) : AppSalesRecord where
  title := jsIndex row idx.idxTitle
  country := jsIndex row idx.idxCountry
  icon := none
  installs := 0
  revenue := 0

/-- Body of the forEach over data rows in parseSalesReport,
src/index.js lines 160-191. -/
def applyRow (idx : ColumnIndices) (rates : Rates) (apps : AppMap) (row : Row) : AppMap :=
  let appID := jsIndex row idx.idxAppID
  let apps1 :=
    match lookupApp apps appID with
    | some _ => apps
    | none => apps ++ [(appID, freshRecord idx row)]
  let type := jsIndex row idx.idxType
  let units := cellNum (jsIndex row idx.idxUnits)
  let localRevenue := cellNum (jsIndex row idx.idxRevenue)
  let currency := jsIndex row idx.idxCurrency
  match lookupRate rates currency with
  | some fxRate =>
    if isInstallType type then
      updateApp apps1 appID (fun a =>
        { a with installs := a.installs + units,
                 revenue := a.revenue + units * localRevenue * (1 / fxRate) })
    else if isIAPType type then
      updateApp apps1 appID (fun a =>
        { a with revenue := a.revenue + units * localRevenue * (1 / fxRate) })
    else apps1
  | none => apps1

/-- parseSalesReport, src/index.js lines 146-194. A report with fewer
than two rows yields the empty mapping; otherwise the data rows are
folded over the apps object. -/
def parseSalesReport (report : List Row) (rates : Rates) : AppMap :=
  match report with
  | [] => []
  | [_] => []
  | header :: rows => rows.foldl (applyRow (resolveIndices header) rates) []

example :
    parseSalesReport
      [[some "Apple Identifier", some "Units", some "Developer Proceeds",
        some "Currency of Proceeds", some "Product Type Identifier",
        some "Title", some "Country Code"],
       [some "7", some "2", some "0.99", some "USD", some "1", some "A", some "US"]]
      [("USD", 1)]
      = [(some "7", ⟨some "A", some "US", none, 2, 99 / 50⟩)] := by
  with_unfolding_all decide

/-- Floor of a nonnegative rational as a natural number (truncating
integer division of numerator by denominator). -/
def ratTruncNat (q : ℚ) : Nat := (q.num / (q.den : Int)).toNat

/-- Left-pad a digit string with zeros to the requested width. -/
def padZeros (s : String) (w : Nat) : String :=
  String.mk (List.replicate (w - s.length) '0') ++ s

/-- Number.prototype.toFixed(f) evaluated exactly over the rationals:
a sign taken from the value, then the integer n minimizing the distance
of n / 10^f to the magnitude, ties resolved to the larger n, rendered
with exactly f fractional digits (none when f = 0). -/
def toFixedQ (x : ℚ) (f : Nat) : String :=
  let s := if x < 0 then "-" else ""
  let n : Nat := ratTruncNat (|x| * (10 : ℚ) ^ f + 1 / 2)
  if f = 0 then s ++ toString n
  else s ++ toString (n / 10 ^ f) ++ "." ++ padZeros (toString (n % 10 ^ f)) f

/-- Comma insertion on a reversed digit list: a comma after every third
digit, as long as more digits follow. -/
def groupRev : List Char → List Char
  | a :: b :: c :: d :: rest => a :: b :: c :: ',' :: groupRev (d :: rest)
  | l => l

/-- The comma-inserting replace(/\B(?=(\d\x7b3\x7d)+(?!\d))/g, ...) idiom of src/index.js on a
string of the shape [-]digits[.digits]: the integer-part digits get
thousands separators, the sign and any fractional part are untouched. -/
def groupDigitString (s : String) : String :=
  let cs := s.data
  let signRest : List Char × List Char :=
    match cs with
    | '-' :: t => (['-'], t)
    | _ => ([], cs)
  let intPart := signRest.2.takeWhile Char.isDigit
  let rest := signRest.2.dropWhile Char.isDigit
  String.mk (signRest.1 ++ (groupRev intPart.reverse).reverse ++ rest)

/-- String rendering of a JS number, exact for every value with a finite
decimal expansion (the only values the pipeline produces): the shortest
decimal digit string, no trailing fractional zeros. A denominator not
of the form 2^a 5^b has no finite expansion and is rendered as a plain
fraction; no report value reaches that fallback. -/
def jsNumToString (q : ℚ) : String :=
  let s := if q < 0 then "-" else ""
  match (List.range 64).find? (fun k => (10 : Nat) ^ k % q.den = 0) with
  | some k =>
    let scaled := q.num.natAbs * 10 ^ k / q.den
    if k = 0 then s ++ toString scaled
    else s ++ toString (scaled / 10 ^ k) ++ "." ++ padZeros (toString (scaled % 10 ^ k)) k
  | none => s ++ toString q.num.natAbs ++ "/" ++ toString q.den

/-- formatNumber, src/index.js lines 433-435. -/
def formatNumber (value : ℚ) : String :=
  groupDigitString (jsNumToString value)

/-- formatPercent, src/index.js lines 437-441. -/
def formatPercent (value : ℚ) : String :=
  let plus := if 0 ≤ value then "+" else ""
  let num := groupDigitString (toFixedQ (value * 100) 1)
  plus ++ num ++ "%"

/-- formatPercentsField, src/index.js lines 443-451: a zero baseline is
falsy and short-circuits the ratio to 1. -/
def formatPercentsField (dayValue prevDayValue prevWeekValue : ℚ) : String :=
  let dayPct := if prevDayValue ≠ 0 then (dayValue - prevDayValue) / |prevDayValue| else 1
  let weekPct := if prevWeekValue ≠ 0 then (dayValue - prevWeekValue) / |prevWeekValue| else 1
  formatPercent dayPct ++ " day / " ++ formatPercent weekPct ++ " week"

/-- formatCurrency, src/index.js lines 453-458. -/
def formatCurrency (value : ℚ) : String :=
  let minus := if value < 0 then "-" else ""
  let sig : Nat := if 100 ≤ |value| then 0 else 2
  let num := groupDigitString (toFixedQ |value| sig)
  minus ++ "$" ++ num

example : formatPercent 1 = "+100.0%" := by with_unfolding_all decide
example : formatPercentsField 50 100 100 = "-50.0% day / -50.0% week" := by
  with_unfolding_all decide
example : formatCurrency (1234.5 : ℚ) = "$1,235" := by with_unfolding_all decide
example : formatCurrency (42.5 : ℚ) = "$42.50" := by with_unfolding_all decide
example : formatCurrency (-5.2 : ℚ) = "-$5.20" := by with_unfolding_all decide
example : formatNumber 1234567 = "1,234,567" := by with_unfolding_all decide
example : formatNumber (25 : ℚ) = "25" := by with_unfolding_all decide

/-- Code-point comparison of character lists (true when the first is ≤). -/
def charListLE : List Char → List Char → Bool
  | [], _ => true
  | _ :: _, [] => false
  | a :: as, b :: bs => if a = b then charListLE as bs else decide (a < b)

/-- Comparison of two strings by code points, modelling the default
locale-aware title.localeCompare ordering of src/index.js line 331. -/
def strLE (a b : String) : Bool := charListLE a.data b.data

/-- Ordering on title cells. In JS a null title would make localeCompare
throw; report-derived titles are the Title cells of the rows, and the
model simply orders a null title first. -/
def cellLE : Cell → Cell → Bool
  | none, _ => true
  | some _, none => false
  | some a, some b => strLE a b

/-- Sorted insertion for the comparator sort of app identifiers. -/
def orderedInsertB (le : Cell → Cell → Bool) (x : Cell) : List Cell → List Cell
  | [] => [x]
  | y :: ys => if le x y then x :: y :: ys else y :: orderedInsertB le x ys

/-- Comparator sort modelling Array.prototype.sort at src/index.js
lines 330-332 (any comparator-consistent reordering; insertion sort
realizes one). -/
def sortByB (le : Cell → Cell → Bool) : List Cell → List Cell
  | [] => []
  | x :: xs => orderedInsertB le x (sortByB le xs)

/-- Object.keys of an association-list object: first occurrence of each
key, in insertion order (a well-formed object never repeats a key). -/
def keysAux : AppMap → List Cell → List Cell
  | [], _ => []
  | (k, _) :: rest, seen =>
    if k ∈ seen then keysAux rest seen else k :: keysAux rest (k :: seen)

/-- Object.keys(sales.day) from src/index.js line 330. -/
def objKeys (m : AppMap) : List Cell := keysAux m []

/-- Record lookup with the zero default: sales.prevDay[appID] ||
(installs 0, revenue 0) from src/index.js lines 336-337. For the day
mapping itself the key always comes from Object.keys, so the default is
never taken there. -/
def getRecordOr0 (m : AppMap) (k : Cell) : AppSalesRecord :=
  (lookupApp m k).getD { title := none, country := none, icon := none, installs := 0, revenue := 0 }

/-- One labelled field of a Slack attachment; a percent field carries no
title key. -/
structure MsgField where
  title : Option String
  value : String
  short : Bool
deriving Repr, DecidableEq

/-- One Slack attachment as built by buildSlackMessage: optional keys of
the JS object literal are Options. -/
structure Attachment where
  fallback : String
  color : String
  pretext : Option String
  author_name : Option String
  author_icon : Option String
  title : Option String
  fields : List MsgField
deriving Repr, DecidableEq

/-- The message posted to Slack: either the bare no-sales text or the
attachments object. -/
inductive SlackMessage where
  | noSalesText (text : String)
  | attachmentsMsg (attachments : List Attachment)
deriving Repr, DecidableEq

/-- createFields, src/index.js lines 394-431: Downloads always, Revenue
only when the (current-period) revenue is truthy, the installs percent
field always, the revenue percent field again only when revenue is truthy. -/
def createFields (installs revenue prevDayInstalls prevDayRevenue
    prevWeekInstalls prevWeekRevenue : ℚ) : List MsgField :=
  [{ title := some "Downloads", value := formatNumber installs, short := true }]
  ++ (if revenue ≠ 0 then
        [{ title := some "Revenue", value := formatCurrency revenue, short := true }]
      else [])
  ++ [{ title := none,
        value := formatPercentsField installs prevDayInstalls prevWeekInstalls,
        short := true }]
  ++ (if revenue ≠ 0 then
        [{ title := none,
           value := formatPercentsField revenue prevDayRevenue prevWeekRevenue,
           short := true }]
      else [])

/-- The per-app attachment pushed by the forEach of buildSlackMessage,
src/index.js lines 334-365. -/
def appSection (day prevDay prevWeek : AppMap) (appID : Cell) : Attachment :=
  let app := getRecordOr0 day appID
  let prevDayApp := getRecordOr0 prevDay appID
  let prevWeekApp := getRecordOr0 prevWeek appID
  let isGood : Bool :=
    if app.revenue ≠ 0 then decide (prevDayApp.revenue < app.revenue)
    else decide (prevDayApp.installs < app.installs)
  { fallback := ""
    color := if isGood then "good" else "danger"
    pretext := none
    author_name := app.title
    author_icon := app.icon
    title := none
    fields := createFields app.installs app.revenue prevDayApp.installs
      prevDayApp.revenue prevWeekApp.installs prevWeekApp.revenue }

/-- buildSlackMessage, src/index.js lines 311-392. The moment date
formatting is external I/O glue; the formatted date string is taken as
input. Totals are accumulated over every sorted app identifier before
the attachment list is cut down to MAX_ATTACHMENTS, and the Totals
attachment is prepended last. -/
def buildSlackMessage (day prevDay prevWeek : AppMap) (dateStr : String) : SlackMessage :=
  if (objKeys day).isEmpty then .noSalesText ("No app sales on " ++ dateStr)
  else
    let appIDs := sortByB (fun a b =>
      cellLE (getRecordOr0 day a).title (getRecordOr0 day b).title) (objKeys day)
    let sections := appIDs.map (appSection day prevDay prevWeek)
    let totalInstallsDay := (appIDs.map (fun k => (getRecordOr0 day k).installs)).sum
    let totalInstallsPrevDay := (appIDs.map (fun k => (getRecordOr0 prevDay k).installs)).sum
    let totalInstallsPrevWeek := (appIDs.map (fun k => (getRecordOr0 prevWeek k).installs)).sum
    let totalRevenueDay := (appIDs.map (fun k => (getRecordOr0 day k).revenue)).sum
    let totalRevenuePrevDay := (appIDs.map (fun k => (getRecordOr0 prevDay k).revenue)).sum
    let totalRevenuePrevWeek := (appIDs.map (fun k => (getRecordOr0 prevWeek k).revenue)).sum
    let sections' :=
      if sections.length > MAX_ATTACHMENTS then sections.take MAX_ATTACHMENTS else sections
    let isTotalGood : Bool :=
      if totalRevenueDay ≠ 0 then decide (totalRevenuePrevDay < totalRevenueDay)
      else decide (totalInstallsPrevDay < totalInstallsDay)
    let text := "Daily Analytics for " ++ dateStr
    .attachmentsMsg (
      { fallback := text
        color := if isTotalGood then "good" else "danger"
        pretext := some text
        author_name := none
        author_icon := none
        title := some "Totals"
        fields := createFields totalInstallsDay totalRevenueDay totalInstallsPrevDay
          totalRevenuePrevDay totalInstallsPrevWeek totalRevenuePrevWeek } :: sections')

/-- Number of attachments of a message (0 for the bare no-sales text). -/
def SlackMessage.sectionCount : SlackMessage → Nat
  | .noSalesText _ => 0
  | .attachmentsMsg l => l.length

/-- Title key of the first attachment, when the message has attachments. -/
def SlackMessage.firstTitle : SlackMessage → Option (Option String)
  | .noSalesText _ => none
  | .attachmentsMsg l => l.head?.map Attachment.title

/-- Field list of the first attachment, when the message has attachments. -/
def SlackMessage.headFields : SlackMessage → Option (List MsgField)
  | .noSalesText _ => none
  | .attachmentsMsg l => l.head?.map Attachment.fields

/-- String.prototype.trim modelled on the character list (whitespace
stripped from both ends). -/
def jsTrim (s : String) : String :=
  String.mk (((s.data.dropWhile Char.isWhitespace).reverse.dropWhile Char.isWhitespace).reverse)

/-- String.prototype.split with a one-character separator: every segment
kept, empty segments included. -/
def jsSplitAux (sep : Char) : List Char → List Char → List String
  | [], acc => [String.mk acc.reverse]
  | c :: rest, acc =>
    if c = sep then String.mk acc.reverse :: jsSplitAux sep rest []
    else jsSplitAux sep rest (c :: acc)

/-- text.split(sep) for a single-character separator. -/
def jsSplit (sep : Char) (s : String) : List String := jsSplitAux sep s.data []

/-- cell.trim() || null from src/index.js line 127. -/
def parseCell (cell : String) : Cell :=
  let t := jsTrim cell
  if t = "" then none else some t

/-- Row splitting of the raw report text, src/index.js lines 123-128. -/
def splitReport (text : String) : List Row :=
  ((jsSplit (Char.ofNat 10) text).filter (fun row => row.length > 1)).map
    (fun row => (jsSplit (Char.ofNat 9) row).map parseCell)

/-- Outcome of the reporter.Sales.getReport transport call: the raw text,
or a rejection with a numeric error code. -/
inductive ReporterResult where
  | ok (text : String)
  | err (code : Int) (message : String)
deriving Repr, DecidableEq

/-- getDailySales, src/index.js lines 109-144: raw text is split into
rows; the known no-report codes resolve to null, the no-sales code
resolves to an empty row list, anything else rethrows. -/
def getDailySales : ReporterResult → Except String (Option (List Row))
  | .ok text => .ok (some (splitReport text))
  | .err code message =>
    if NO_REPORT_ERRORS.contains code then .ok none
    else if code = ERR_NO_SALES then .ok (some [])
    else .error message

/-- The results object of getSalesForDate: prevDay and prevWeek stay
null (none) when the day mapping is empty and they are never fetched. -/
structure SalesResults where
  day : AppMap
  prevDay : Option AppMap
  prevWeek : Option AppMap
deriving Repr, DecidableEq

/-- parseSalesReport applied to a getDailySales result as on
src/index.js lines 101 and 103: a null report (not-yet-published) makes
report.length throw a TypeError. -/
def parseMaybeNull (report : Option (List Row)) (rates : Rates) :
    Except String AppMap :=
  match report with
  | none => .error "TypeError: Cannot read property length of null"
  | some r => .ok (parseSalesReport r rates)

/-- getSalesForDate, src/index.js lines 82-107, as a function of the
three fetch outcomes and the exchange-rate table (the rate fetch itself
is I/O glue). Null day report short-circuits to none; an empty day
mapping returns without fetching the comparison dates; otherwise the
comparison reports are parsed with the same rate table. -/
def getSalesForDate (dayFetch prevDayFetch prevWeekFetch : ReporterResult)
    (rates : Rates) : Except String (Option SalesResults) :=
  match getDailySales dayFetch with
  | .error e => .error e
  | .ok none => .ok none
  | .ok (some rep) =>
    let day := parseSalesReport rep rates
    if day.isEmpty then .ok (some { day := day, prevDay := none, prevWeek := none })
    else
      match getDailySales prevDayFetch with
      | .error e => .error e
      | .ok pdRep =>
        match parseMaybeNull pdRep rates with
        | .error e => .error e
        | .ok prevDay =>
          match getDailySales prevWeekFetch with
          | .error e => .error e
          | .ok pwRep =>
            match parseMaybeNull pwRep rates with
            | .error e => .error e
            | .ok prevWeek =>
              .ok (some { day := day, prevDay := some prevDay, prevWeek := some prevWeek })

/-- Exchange rate resolved for a row, as applyRow resolves it. -/
def rowFxRate (idx : ColumnIndices) (rates : Rates) (row : Row) : Option ℚ :=
  lookupRate rates (jsIndex row idx.idxCurrency)

/-- Contribution of one data row to the installs accumulator of the key
k: its Units value when the row belongs to k, its currency resolves and
its product type is Install-class, 0 otherwise. -/
def rowInstallDelta (idx : ColumnIndices) (rates : Rates) (row : Row) (k : Cell) : ℚ :=
  if jsIndex row idx.idxAppID = k then
    match rowFxRate idx rates row with
    | some _ =>
      if isInstallType (jsIndex row idx.idxType) then cellNum (jsIndex row idx.idxUnits) else 0
    | none => 0
  else 0

/-- Contribution of one data row to the revenue accumulator of the key
k: units * localProceeds * (1 / fxRate) when the row belongs to k, its
currency resolves and its product type is Install- or InAppPurchase-class. -/
def rowRevenueDelta (idx : ColumnIndices) (rates : Rates) (row : Row) (k : Cell) : ℚ :=
  if jsIndex row idx.idxAppID = k then
    match rowFxRate idx rates row with
    | some fxRate =>
      if isInstallType (jsIndex row idx.idxType) || isIAPType (jsIndex row idx.idxType) then
        cellNum (jsIndex row idx.idxUnits) * cellNum (jsIndex row idx.idxRevenue) * (1 / fxRate)
      else 0
    | none => 0
  else 0

/-- Record with both accumulators advanced. -/
def addDeltas (a : AppSalesRecord) (di dr : ℚ) : AppSalesRecord :=
  { a with installs := a.installs + di, revenue := a.revenue + dr }

/-- Total installs contribution of a row list to a key. -/
def specInstalls (idx : ColumnIndices) (rates : Rates) (rows : List Row) (k : Cell) : ℚ :=
  (rows.map (fun r => rowInstallDelta idx rates r k)).sum

/-- Total revenue contribution of a row list to a key. -/
def specRevenue (idx : ColumnIndices) (rates : Rates) (rows : List Row) (k : Cell) : ℚ :=
  (rows.map (fun r => rowRevenueDelta idx rates r k)).sum

/-- First data row carrying a given app identifier (the row whose title
and country cells seed the record). -/
def firstRowFor (idx : ColumnIndices) (rows : List Row) (k : Cell) : Option Row :=
  rows.find? (fun r => decide (jsIndex r idx.idxAppID = k))

theorem addDeltas_zero (a : AppSalesRecord) : addDeltas a 0 0 = a := by
  simp [addDeltas]

theorem addDeltas_addDeltas (a : AppSalesRecord) (di dr di' dr' : ℚ) :
    addDeltas (addDeltas a di dr) di' dr' = addDeltas a (di + di') (dr + dr') := by
  simp [addDeltas, add_assoc]

theorem specInstalls_cons (idx : ColumnIndices) (rates : Rates) (row : Row)
    (rows : List Row) (k : Cell) :
    specInstalls idx rates (row :: rows) k =
      rowInstallDelta idx rates row k + specInstalls idx rates rows k := by
  simp [specInstalls]

theorem specRevenue_cons (idx : ColumnIndices) (rates : Rates) (row : Row)
    (rows : List Row) (k : Cell) :
    specRevenue idx rates (row :: rows) k =
      rowRevenueDelta idx rates row k + specRevenue idx rates rows k := by
  simp [specRevenue]

theorem lookupApp_updateApp (m : AppMap) (k0 : Cell) (f : AppSalesRecord → AppSalesRecord)
    (k : Cell) :
    lookupApp (updateApp m k0 f) k =
      if k0 = k then (lookupApp m k).map f else lookupApp m k := by
  induction m with
  | nil => by_cases h : k0 = k <;> simp [lookupApp, updateApp, h]
  | cons e rest ih =>
    obtain ⟨k', v⟩ := e
    by_cases h1 : k' = k0
    · subst h1
      by_cases h2 : k' = k <;> simp [lookupApp, updateApp, h2]
    · by_cases h2 : k' = k
      · subst h2
        have h3 : ¬ k0 = k' := fun h => h1 h.symm
        simp [lookupApp, updateApp, h1, h3]
      · simp [lookupApp, updateApp, h1, h2, ih]

theorem lookupApp_append (m : AppMap) (k0 : Cell) (v : AppSalesRecord) (k : Cell) :
    lookupApp (m ++ [(k0, v)]) k =
      match lookupApp m k with
      | some a => some a
      | none => if k0 = k then some v else none := by
  induction m with
  | nil => simp [lookupApp]
  | cons e rest ih =>
    obtain ⟨k', v'⟩ := e
    by_cases h : k' = k <;> simp [lookupApp, h, ih]

theorem lookupApp_applyRow (idx : ColumnIndices) (rates : Rates) (m : AppMap)
    (row : Row) (k : Cell) :
    lookupApp (applyRow idx rates m row) k =
      match lookupApp m k with
      | some a =>
        some (addDeltas a (rowInstallDelta idx rates row k) (rowRevenueDelta idx rates row k))
      | none =>
        if jsIndex row idx.idxAppID = k then
          some (addDeltas (freshRecord idx row)
            (rowInstallDelta idx rates row k) (rowRevenueDelta idx rates row k))
        else none := by
  by_cases hk : jsIndex row idx.idxAppID = k
  · subst hk
    cases hm : lookupApp m (jsIndex row idx.idxAppID) with
    | some a0 =>
      cases hfx : lookupRate rates (jsIndex row idx.idxCurrency) with
      | none =>
        simp [applyRow, hm, hfx, rowInstallDelta, rowRevenueDelta, rowFxRate, addDeltas]
      | some fx =>
        by_cases hI : isInstallType (jsIndex row idx.idxType) <;>
          by_cases hP : isIAPType (jsIndex row idx.idxType) <;>
            simp [applyRow, hm, hfx, hI, hP, rowInstallDelta, rowRevenueDelta, rowFxRate,
              lookupApp_updateApp, addDeltas]
    | none =>
      cases hfx : lookupRate rates (jsIndex row idx.idxCurrency) with
      | none =>
        simp [applyRow, hm, hfx, rowInstallDelta, rowRevenueDelta, rowFxRate,
          lookupApp_append, addDeltas]
      | some fx =>
        by_cases hI : isInstallType (jsIndex row idx.idxType) <;>
          by_cases hP : isIAPType (jsIndex row idx.idxType) <;>
            simp [applyRow, hm, hfx, hI, hP, rowInstallDelta, rowRevenueDelta, rowFxRate,
              lookupApp_updateApp, lookupApp_append, addDeltas]
  · cases hmk : lookupApp m k with
    | some a =>
      cases hm : lookupApp m (jsIndex row idx.idxAppID) with
      | some a0 =>
        cases hfx : lookupRate rates (jsIndex row idx.idxCurrency) with
        | none =>
          simp [applyRow, hm, hfx, hmk, hk, rowInstallDelta, rowRevenueDelta, addDeltas]
        | some fx =>
          by_cases hI : isInstallType (jsIndex row idx.idxType) <;>
            by_cases hP : isIAPType (jsIndex row idx.idxType) <;>
              simp [applyRow, hm, hfx, hI, hP, hmk, hk, rowInstallDelta, rowRevenueDelta,
                lookupApp_updateApp, addDeltas]
      | none =>
        cases hfx : lookupRate rates (jsIndex row idx.idxCurrency) with
        | none =>
          simp [applyRow, hm, hfx, hmk, hk, rowInstallDelta, rowRevenueDelta,
            lookupApp_append, addDeltas]
        | some fx =>
          by_cases hI : isInstallType (jsIndex row idx.idxType) <;>
            by_cases hP : isIAPType (jsIndex row idx.idxType) <;>
              simp [applyRow, hm, hfx, hI, hP, hmk, hk, rowInstallDelta, rowRevenueDelta,
                lookupApp_updateApp, lookupApp_append, addDeltas]
    | none =>
      cases hm : lookupApp m (jsIndex row idx.idxAppID) with
      | some a0 =>
        cases hfx : lookupRate rates (jsIndex row idx.idxCurrency) with
        | none =>
          simp [applyRow, hm, hfx, hmk, hk]
        | some fx =>
          by_cases hI : isInstallType (jsIndex row idx.idxType) <;>
            by_cases hP : isIAPType (jsIndex row idx.idxType) <;>
              simp [applyRow, hm, hfx, hI, hP, hmk, hk, lookupApp_updateApp]
      | none =>
        cases hfx : lookupRate rates (jsIndex row idx.idxCurrency) with
        | none =>
          simp [applyRow, hm, hfx, hmk, hk, lookupApp_append]
        | some fx =>
          by_cases hI : isInstallType (jsIndex row idx.idxType) <;>
            by_cases hP : isIAPType (jsIndex row idx.idxType) <;>
              simp [applyRow, hm, hfx, hI, hP, hmk, hk, lookupApp_updateApp, lookupApp_append]

theorem firstRowFor_cons (idx : ColumnIndices) (row : Row) (rows : List Row) (k : Cell) :
    firstRowFor idx (row :: rows) k =
      if jsIndex row idx.idxAppID = k then some row else firstRowFor idx rows k := by
  by_cases hk : jsIndex row idx.idxAppID = k <;> simp [firstRowFor, List.find?_cons, hk]

theorem lookupApp_foldl (idx : ColumnIndices) (rates : Rates) (rows : List Row)
    (m : AppMap) (k : Cell) :
    lookupApp (rows.foldl (applyRow idx rates) m) k =
      match lookupApp m k with
      | some a =>
        some (addDeltas a (specInstalls idx rates rows k) (specRevenue idx rates rows k))
      | none =>
        match firstRowFor idx rows k with
        | some r0 =>
          some (addDeltas (freshRecord idx r0)
            (specInstalls idx rates rows k) (specRevenue idx rates rows k))
        | none => none := by
  induction rows generalizing m with
  | nil =>
    cases hmk : lookupApp m k <;>
      simp [specInstalls, specRevenue, firstRowFor, addDeltas_zero, hmk]
  | cons row rows ih =>
    simp only [List.foldl_cons]
    rw [ih, lookupApp_applyRow]
    cases hmk : lookupApp m k with
    | some a =>
      simp [specInstalls_cons, specRevenue_cons, addDeltas_addDeltas]
    | none =>
      by_cases hk : jsIndex row idx.idxAppID = k
      · simp [hk, firstRowFor_cons, specInstalls_cons, specRevenue_cons, addDeltas_addDeltas]
      · cases hfr : firstRowFor idx rows k with
        | some r0 =>
          simp [hk, firstRowFor_cons, hfr, specInstalls_cons, specRevenue_cons,
            rowInstallDelta, rowRevenueDelta]
        | none =>
          simp [hk, firstRowFor_cons, hfr, specInstalls_cons, specRevenue_cons]

theorem lookupApp_parse (header : Row) (rows : List Row) (rates : Rates) (k : Cell)
    (h : rows ≠ []) :
    lookupApp (parseSalesReport (header :: rows) rates) k =
      match firstRowFor (resolveIndices header) rows k with
      | some r0 =>
        some (addDeltas (freshRecord (resolveIndices header) r0)
          (specInstalls (resolveIndices header) rates rows k)
          (specRevenue (resolveIndices header) rates rows k))
      | none => none := by
  cases rows with
  | nil => exact absurd rfl h
  | cons row rows =>
    show lookupApp ((row :: rows).foldl (applyRow (resolveIndices header) rates) []) k = _
    rw [lookupApp_foldl]
    simp [lookupApp]

theorem parse_lookup_some (header : Row) (rows : List Row) (rates : Rates) (k : Cell)
    (r : AppSalesRecord)
    (hk : lookupApp (parseSalesReport (header :: rows) rates) k = some r) :
    r.installs = specInstalls (resolveIndices header) rates rows k ∧
    r.revenue = specRevenue (resolveIndices header) rates rows k := by
  cases rows with
  | nil => simp [parseSalesReport, lookupApp] at hk
  | cons row rows =>
    have h := lookupApp_parse header (row :: rows) rates k (by simp)
    rw [hk] at h
    cases hfr : firstRowFor (resolveIndices header) (row :: rows) k with
    | none => rw [hfr] at h; cases h
    | some r0 =>
      rw [hfr] at h
      have hr : r = addDeltas (freshRecord (resolveIndices header) r0)
          (specInstalls (resolveIndices header) rates (row :: rows) k)
          (specRevenue (resolveIndices header) rates (row :: rows) k) :=
        Option.some.inj h
      subst hr
      simp [addDeltas, freshRecord]

/-- The seven column names parseSalesReport resolves from the header. -/
def requiredColumnNames : List String :=
  ["Apple Identifier", "Country Code", "Currency of Proceeds", "Title",
   "Units", "Developer Proceeds", "Product Type Identifier"]

/-- Manual accumulation of the claim: the sum of the Units values over
the Install-class rows of an app. -/
def claimInstalls (idx : ColumnIndices) (rows : List Row) (k : Cell) : ℚ :=
  ((rows.filter (fun r => decide (jsIndex r idx.idxAppID = k) &&
      isInstallType (jsIndex r idx.idxType))).map
    (fun r => cellNum (jsIndex r idx.idxUnits))).sum

/-- Manual accumulation of the claim: the sum of units * localProceeds /
fxRate over the Install-class and InAppPurchase-class rows of an app. -/
def claimRevenue (idx : ColumnIndices) (rates : Rates) (rows : List Row) (k : Cell) : ℚ :=
  ((rows.filter (fun r => decide (jsIndex r idx.idxAppID = k) &&
      (isInstallType (jsIndex r idx.idxType) || isIAPType (jsIndex r idx.idxType)))).map
    (fun r => cellNum (jsIndex r idx.idxUnits) * cellNum (jsIndex r idx.idxRevenue) /
      ((rowFxRate idx rates r).getD 1))).sum

theorem rowInstallDelta_of_fx (idx : ColumnIndices) (rates : Rates) (row : Row) (k : Cell)
    (h : (rowFxRate idx rates row).isSome) :
    rowInstallDelta idx rates row k =
      if decide (jsIndex row idx.idxAppID = k) && isInstallType (jsIndex row idx.idxType) then
        cellNum (jsIndex row idx.idxUnits)
      else 0 := by
  obtain ⟨fx, hfx⟩ := Option.isSome_iff_exists.mp h
  by_cases h1 : jsIndex row idx.idxAppID = k <;>
    by_cases h2 : isInstallType (jsIndex row idx.idxType) <;>
      simp [rowInstallDelta, hfx, h1, h2]

theorem rowRevenueDelta_of_fx (idx : ColumnIndices) (rates : Rates) (row : Row) (k : Cell)
    (h : (rowFxRate idx rates row).isSome) :
    rowRevenueDelta idx rates row k =
      if decide (jsIndex row idx.idxAppID = k) &&
          (isInstallType (jsIndex row idx.idxType) || isIAPType (jsIndex row idx.idxType)) then
        cellNum (jsIndex row idx.idxUnits) * cellNum (jsIndex row idx.idxRevenue) /
          ((rowFxRate idx rates row).getD 1)
      else 0 := by
  obtain ⟨fx, hfx⟩ := Option.isSome_iff_exists.mp h
  by_cases h1 : jsIndex row idx.idxAppID = k <;>
    by_cases h2 : isInstallType (jsIndex row idx.idxType) <;>
      by_cases h3 : isIAPType (jsIndex row idx.idxType) <;>
        simp [rowRevenueDelta, hfx, h1, h2, h3, mul_one_div, div_eq_mul_inv]

theorem specInstalls_eq_claim (idx : ColumnIndices) (rates : Rates) (rows : List Row)
    (k : Cell) (hfx : ∀ row ∈ rows, (rowFxRate idx rates row).isSome) :
    specInstalls idx rates rows k = claimInstalls idx rows k := by
  induction rows with
  | nil => simp [specInstalls, claimInstalls]
  | cons row rows ih =>
    rw [specInstalls_cons,
      rowInstallDelta_of_fx idx rates row k (hfx row (List.mem_cons_self row rows)),
      ih (fun r hr => hfx r (List.mem_cons_of_mem row hr))]
    by_cases hp : (decide (jsIndex row idx.idxAppID = k) &&
        isInstallType (jsIndex row idx.idxType)) = true <;>
      simp [claimInstalls, List.filter_cons, hp]

theorem specRevenue_eq_claim (idx : ColumnIndices) (rates : Rates) (rows : List Row)
    (k : Cell) (hfx : ∀ row ∈ rows, (rowFxRate idx rates row).isSome) :
    specRevenue idx rates rows k = claimRevenue idx rates rows k := by
  induction rows with
  | nil => simp [specRevenue, claimRevenue]
  | cons row rows ih =>
    rw [specRevenue_cons,
      rowRevenueDelta_of_fx idx rates row k (hfx row (List.mem_cons_self row rows)),
      ih (fun r hr => hfx r (List.mem_cons_of_mem row hr))]
    by_cases hp : (decide (jsIndex row idx.idxAppID = k) &&
        (isInstallType (jsIndex row idx.idxType) || isIAPType (jsIndex row idx.idxType))) = true <;>
      simp [claimRevenue, List.filter_cons, hp]

/-- C1: for every header-plus-data report in which all required columns
are present and every data row's currency resolves against the rate
table, every record of the mapping returned by parseSalesReport has
installs equal to the sum of the Units values of that app's
Install-class rows and revenue equal to the sum of
units * localProceeds / fxRate over that app's Install-class and
InAppPurchase-class rows; rows of neither class contribute nothing. -/
theorem C1_parse_accumulation (header : Row) (rows : List Row) (rates : Rates)
    (hcols : ∀ col ∈ requiredColumnNames, some col ∈ header)
    (hfx : ∀ row ∈ rows, (rowFxRate (resolveIndices header) rates row).isSome)
    (k : Cell) (r : AppSalesRecord)
    (hk : lookupApp (parseSalesReport (header :: rows) rates) k = some r) :
    r.installs = claimInstalls (resolveIndices header) rows k ∧
    r.revenue = claimRevenue (resolveIndices header) rates rows k := by
  obtain ⟨h1, h2⟩ := parse_lookup_some header rows rates k r hk
  exact ⟨h1.trans (specInstalls_eq_claim _ rates rows k hfx),
    h2.trans (specRevenue_eq_claim _ rates rows k hfx)⟩

/-- Demonstration header with all seven required columns. -/
def demoHeader : Row :=
  [some "Apple Identifier", some "Country Code", some "Currency of Proceeds",
   some "Title", some "Units", some "Developer Proceeds", some "Product Type Identifier"]

/-- Demonstration data rows: two install and in-app rows of one app in
two currencies plus a row of an unclassified product type. -/
def demoRows : List Row :=
  [[some "1", some "US", some "USD", some "Alpha", some "2", some "0.99", some "1"],
   [some "1", some "US", some "EUR", some "Alpha", some "3", some "1.8", some "IA1"],
   [some "2", some "GB", some "USD", some "Beta", some "4", some "0.5", some "7"]]

/-- Demonstration rate table. -/
def demoRates : Rates := [("USD", 1), ("EUR", 9 / 10)]

/-- The record parseSalesReport accumulates for app 1 of the
demonstration report: 2 installs, 2*0.99/1 + 3*1.8/0.9 = 7.98 dollars. -/
def demoRec : AppSalesRecord :=
  { title := some "Alpha", country := some "US", icon := none,
    installs := 2, revenue := 399 / 50 }

theorem C1_parse_accumulation_witness :
    demoRec.installs = claimInstalls (resolveIndices demoHeader) demoRows (some "1") ∧
    demoRec.revenue = claimRevenue (resolveIndices demoHeader) demoRates demoRows (some "1") :=
  C1_parse_accumulation demoHeader demoRows demoRates
    (by with_unfolding_all decide) (by with_unfolding_all decide) (some "1") demoRec
    (by with_unfolding_all decide)

/-- Installs of the record stored at a key, 0 when the key is absent. -/
def installsAt (m : AppMap) (k : Cell) : ℚ :=
  ((lookupApp m k).map AppSalesRecord.installs).getD 0

/-- Revenue of the record stored at a key, 0 when the key is absent. -/
def revenueAt (m : AppMap) (k : Cell) : ℚ :=
  ((lookupApp m k).map AppSalesRecord.revenue).getD 0

theorem specInstalls_append (idx : ColumnIndices) (rates : Rates) (l1 l2 : List Row) (k : Cell) :
    specInstalls idx rates (l1 ++ l2) k =
      specInstalls idx rates l1 k + specInstalls idx rates l2 k := by
  simp [specInstalls]

theorem specRevenue_append (idx : ColumnIndices) (rates : Rates) (l1 l2 : List Row) (k : Cell) :
    specRevenue idx rates (l1 ++ l2) k =
      specRevenue idx rates l1 k + specRevenue idx rates l2 k := by
  simp [specRevenue]

theorem specInstalls_zero_of_no_row (idx : ColumnIndices) (rates : Rates) (rows : List Row)
    (k : Cell) (h : ∀ r ∈ rows, ¬ jsIndex r idx.idxAppID = k) :
    specInstalls idx rates rows k = 0 := by
  refine List.sum_eq_zero ?_
  intro x hx
  obtain ⟨r, hr, rfl⟩ := List.mem_map.mp hx
  simp [rowInstallDelta, h r hr]

theorem specRevenue_zero_of_no_row (idx : ColumnIndices) (rates : Rates) (rows : List Row)
    (k : Cell) (h : ∀ r ∈ rows, ¬ jsIndex r idx.idxAppID = k) :
    specRevenue idx rates rows k = 0 := by
  refine List.sum_eq_zero ?_
  intro x hx
  obtain ⟨r, hr, rfl⟩ := List.mem_map.mp hx
  simp [rowRevenueDelta, h r hr]

theorem installsAt_parse (header : Row) (rows : List Row) (rates : Rates) (k : Cell) :
    installsAt (parseSalesReport (header :: rows) rates) k =
      specInstalls (resolveIndices header) rates rows k := by
  cases rows with
  | nil => simp [parseSalesReport, installsAt, lookupApp, specInstalls]
  | cons row rows =>
    rw [installsAt, lookupApp_parse header (row :: rows) rates k (by simp)]
    cases hfr : firstRowFor (resolveIndices header) (row :: rows) k with
    | some r0 => simp [addDeltas, freshRecord]
    | none =>
      have hno : ∀ r ∈ row :: rows, ¬ jsIndex r (resolveIndices header).idxAppID = k := by
        intro r hr
        have := List.find?_eq_none.mp hfr r hr
        simpa using this
      simp [specInstalls_zero_of_no_row _ rates _ k hno]

theorem revenueAt_parse (header : Row) (rows : List Row) (rates : Rates) (k : Cell) :
    revenueAt (parseSalesReport (header :: rows) rates) k =
      specRevenue (resolveIndices header) rates rows k := by
  cases rows with
  | nil => simp [parseSalesReport, revenueAt, lookupApp, specRevenue]
  | cons row rows =>
    rw [revenueAt, lookupApp_parse header (row :: rows) rates k (by simp)]
    cases hfr : firstRowFor (resolveIndices header) (row :: rows) k with
    | some r0 => simp [addDeltas, freshRecord]
    | none =>
      have hno : ∀ r ∈ row :: rows, ¬ jsIndex r (resolveIndices header).idxAppID = k := by
        intro r hr
        have := List.find?_eq_none.mp hfr r hr
        simpa using this
      simp [specRevenue_zero_of_no_row _ rates _ k hno]

theorem rowInstallDelta_of_no_fx (idx : ColumnIndices) (rates : Rates) (row : Row) (k : Cell)
    (h : rowFxRate idx rates row = none) : rowInstallDelta idx rates row k = 0 := by
  by_cases h1 : jsIndex row idx.idxAppID = k <;> simp [rowInstallDelta, h, h1]

theorem rowRevenueDelta_of_no_fx (idx : ColumnIndices) (rates : Rates) (row : Row) (k : Cell)
    (h : rowFxRate idx rates row = none) : rowRevenueDelta idx rates row k = 0 := by
  by_cases h1 : jsIndex row idx.idxAppID = k <;> simp [rowRevenueDelta, h, h1]

/-- C8: a data row whose currency has no entry in the rate table adds
nothing to any record's installs or revenue (removing the row changes no
accumulator), yet the row's app identifier still gets its record, so the
app still appears in the returned mapping; nothing is raised since
parseSalesReport is a total function. -/
theorem C8_unresolvable_currency_row (header : Row) (rows1 rows2 : List Row) (row : Row)
    (rates : Rates) (k : Cell)
    (hfx : rowFxRate (resolveIndices header) rates row = none) :
    installsAt (parseSalesReport (header :: (rows1 ++ row :: rows2)) rates) k =
      installsAt (parseSalesReport (header :: (rows1 ++ rows2)) rates) k ∧
    revenueAt (parseSalesReport (header :: (rows1 ++ row :: rows2)) rates) k =
      revenueAt (parseSalesReport (header :: (rows1 ++ rows2)) rates) k ∧
    (lookupApp (parseSalesReport (header :: (rows1 ++ row :: rows2)) rates)
      (jsIndex row (resolveIndices header).idxAppID)).isSome := by
  refine ⟨?_, ?_, ?_⟩
  · rw [installsAt_parse, installsAt_parse, specInstalls_append, specInstalls_append,
      specInstalls_cons, rowInstallDelta_of_no_fx _ rates row k hfx, zero_add]
  · rw [revenueAt_parse, revenueAt_parse, specRevenue_append, specRevenue_append,
      specRevenue_cons, rowRevenueDelta_of_no_fx _ rates row k hfx, zero_add]
  · rw [lookupApp_parse header _ rates _ (by simp)]
    have hfind : (firstRowFor (resolveIndices header) (rows1 ++ row :: rows2)
        (jsIndex row (resolveIndices header).idxAppID)).isSome := by
      rw [firstRowFor, List.find?_isSome]
      exact ⟨row, by simp, by simp⟩
    obtain ⟨r0, hr0⟩ := Option.isSome_iff_exists.mp hfind
    rw [hr0]
    rfl

/-- Demonstration report containing one row with an unlisted currency. -/
def xyzReport : List Row :=
  [demoHeader,
   [some "1", some "US", some "USD", some "Alpha", some "2", some "0.99", some "1"],
   [some "3", some "FR", some "XYZ", some "Gamma", some "9", some "1.5", some "1"]]

theorem C8_unresolvable_currency_row_witness :
    installsAt (parseSalesReport xyzReport [("USD", 1)]) (some "3") =
      installsAt (parseSalesReport
        [demoHeader, [some "1", some "US", some "USD", some "Alpha",
          some "2", some "0.99", some "1"]] [("USD", 1)]) (some "3") ∧
    revenueAt (parseSalesReport xyzReport [("USD", 1)]) (some "3") =
      revenueAt (parseSalesReport
        [demoHeader, [some "1", some "US", some "USD", some "Alpha",
          some "2", some "0.99", some "1"]] [("USD", 1)]) (some "3") ∧
    (lookupApp (parseSalesReport xyzReport [("USD", 1)])
      (jsIndex [some "3", some "FR", some "XYZ", some "Gamma", some "9", some "1.5", some "1"]
        (resolveIndices demoHeader).idxAppID)).isSome :=
  C8_unresolvable_currency_row demoHeader
    [[some "1", some "US", some "USD", some "Alpha", some "2", some "0.99", some "1"]] []
    [some "3", some "FR", some "XYZ", some "Gamma", some "9", some "1.5", some "1"]
    [("USD", 1)] (some "3") (by with_unfolding_all decide)

/-- Report with a negative Units value (a refund-style row). -/
def negUnitsReport : List Row :=
  [demoHeader,
   [some "1", some "US", some "USD", some "Alpha", some "-5", some "0.7", some "1"]]

/-- C9 counterexample: a single Install-class row with Units -5 drives
the installs accumulator of the returned record to -5 < 0, so the
installs value is not a non-negative integer for every input. -/
theorem C9_counterexample_negative_installs :
    lookupApp (parseSalesReport negUnitsReport [("USD", 1)]) (some "1") =
      some { title := some "Alpha", country := some "US", icon := none,
             installs := -5, revenue := -7 / 2 } ∧
    ((-5 : ℚ) < 0) := by
  exact ⟨by with_unfolding_all decide, by with_unfolding_all decide⟩

theorem rowInstallDelta_cases (idx : ColumnIndices) (rates : Rates) (row : Row) (k : Cell) :
    rowInstallDelta idx rates row k = 0 ∨
    rowInstallDelta idx rates row k = cellNum (jsIndex row idx.idxUnits) := by
  by_cases h1 : jsIndex row idx.idxAppID = k
  · cases hfx : rowFxRate idx rates row with
    | none => exact Or.inl (rowInstallDelta_of_no_fx idx rates row k hfx)
    | some fx =>
      by_cases hI : isInstallType (jsIndex row idx.idxType)
      · exact Or.inr (by simp [rowInstallDelta, h1, hfx, hI])
      · exact Or.inl (by simp [rowInstallDelta, h1, hfx, hI])
  · exact Or.inl (by simp [rowInstallDelta, h1])

theorem sum_nonneg_int (l : List ℚ) (h : ∀ x ∈ l, 0 ≤ x ∧ x.den = 1) :
    0 ≤ l.sum ∧ l.sum.den = 1 := by
  induction l with
  | nil => exact ⟨le_refl 0, rfl⟩
  | cons x xs ih =>
    obtain ⟨hx0, hx1⟩ := h x (List.mem_cons_self x xs)
    obtain ⟨hs0, hs1⟩ := ih (fun y hy => h y (List.mem_cons_of_mem x hy))
    refine ⟨by simpa using add_nonneg hx0 hs0, ?_⟩
    have hx : ((x.num : ℚ)) = x := (Rat.den_eq_one_iff x).mp hx1
    have hs : ((xs.sum.num : ℚ)) = xs.sum := (Rat.den_eq_one_iff xs.sum).mp hs1
    have hsum : (x + xs.sum) = ((x.num + xs.sum.num : ℤ) : ℚ) := by
      push_cast
      rw [hx, hs]
    rw [List.sum_cons, hsum]
    exact Rat.den_intCast _

/-- C9 amended: the installs accumulator is a non-negative integer
whenever every data row's Units value reads as a non-negative integer,
but nothing clamps it: a negative Units value (such as a refund row)
drives it below zero. -/
theorem C9_installs_nonneg_integer (header : Row) (rows : List Row) (rates : Rates)
    (hunit : ∀ row ∈ rows,
      0 ≤ cellNum (jsIndex row (resolveIndices header).idxUnits) ∧
      (cellNum (jsIndex row (resolveIndices header).idxUnits)).den = 1)
    (k : Cell) (r : AppSalesRecord)
    (hk : lookupApp (parseSalesReport (header :: rows) rates) k = some r) :
    0 ≤ r.installs ∧ r.installs.den = 1 := by
  obtain ⟨h1, _⟩ := parse_lookup_some header rows rates k r hk
  rw [h1]
  refine sum_nonneg_int _ ?_
  intro x hx
  obtain ⟨row, hrow, rfl⟩ := List.mem_map.mp hx
  rcases rowInstallDelta_cases (resolveIndices header) rates row k with h | h
  · rw [h]; exact ⟨le_refl 0, rfl⟩
  · rw [h]; exact hunit row hrow

theorem C9_installs_nonneg_integer_witness :
    0 ≤ demoRec.installs ∧ demoRec.installs.den = 1 :=
  C9_installs_nonneg_integer demoHeader demoRows demoRates
    (by with_unfolding_all decide) (some "1") demoRec (by with_unfolding_all decide)

theorem jsIndexOfFrom_eq_neg_one (l : Row) (c : Cell) (h : c ∉ l) :
    ∀ i : Nat, jsIndexOfFrom l c i = -1 := by
  induction l with
  | nil => intro i; rfl
  | cons c' rest ih =>
    intro i
    have hne : ¬ c' = c := fun hc => h (hc ▸ List.mem_cons_self c' rest)
    have hrest : c ∉ rest := fun hc => h (List.mem_cons_of_mem c' hc)
    simp [jsIndexOfFrom, hne, ih hrest]

theorem jsIndexOf_eq_neg_one (l : Row) (c : Cell) (h : c ∉ l) : jsIndexOf l c = -1 :=
  jsIndexOfFrom_eq_neg_one l c h 0

theorem jsIndex_neg_one (row : Row) : jsIndex row (-1) = none := by
  simp [jsIndex]

/-- Header of six columns only: Currency of Proceeds is missing. -/
def noCurrencyHeader : Row :=
  [some "Apple Identifier", some "Country Code", some "Title", some "Units",
   some "Developer Proceeds", some "Product Type Identifier"]

/-- Two-row report whose header lacks a required column. -/
def noCurrencyReport : List Row :=
  [noCurrencyHeader,
   [some "1", some "US", some "Alpha", some "2", some "0.99", some "1"]]

/-- C3 counterexample: a report of two rows whose header lacks the
required Currency of Proceeds column makes parseSalesReport return an
ordinary mapping, not a fatal error: the function body contains no check
on the resolved indices and no throwing operation, the missing column
simply reads as an absent cell everywhere. -/
theorem C3_counterexample_missing_column_returns :
    (some "Currency of Proceeds" ∉ noCurrencyHeader) ∧
    noCurrencyReport.length ≥ 2 ∧
    parseSalesReport noCurrencyReport [("USD", 1)] =
      [(some "1", { title := some "Alpha", country := some "US", icon := none,
                    installs := 0, revenue := 0 })] := by
  exact ⟨by with_unfolding_all decide, by with_unfolding_all decide,
    by with_unfolding_all decide⟩

/-- C3 amended: parseSalesReport never fails on a header that lacks a
required column; the affected index resolves to -1 and every read
through it yields an absent cell. In particular, with the currency
column missing no row's currency resolves, so every record of the still
returned mapping carries zero installs and zero revenue. -/
theorem C3_missing_column_zeroes (header : Row) (rows : List Row) (rates : Rates)
    (hmiss : some "Currency of Proceeds" ∉ header)
    (k : Cell) (r : AppSalesRecord)
    (hk : lookupApp (parseSalesReport (header :: rows) rates) k = some r) :
    r.installs = 0 ∧ r.revenue = 0 := by
  obtain ⟨h1, h2⟩ := parse_lookup_some header rows rates k r hk
  have hidx : (resolveIndices header).idxCurrency = -1 :=
    jsIndexOf_eq_neg_one header (some "Currency of Proceeds") hmiss
  have hfx : ∀ row : Row, rowFxRate (resolveIndices header) rates row = none := by
    intro row
    rw [rowFxRate, hidx, jsIndex_neg_one]
    rfl
  constructor
  · rw [h1]
    exact List.sum_eq_zero (by
      intro x hx
      obtain ⟨row, hrow, rfl⟩ := List.mem_map.mp hx
      exact rowInstallDelta_of_no_fx _ rates row k (hfx row))
  · rw [h2]
    exact List.sum_eq_zero (by
      intro x hx
      obtain ⟨row, hrow, rfl⟩ := List.mem_map.mp hx
      exact rowRevenueDelta_of_no_fx _ rates row k (hfx row))

theorem C3_missing_column_zeroes_witness :
    (lookupApp (parseSalesReport noCurrencyReport [("USD", 1)]) (some "1") =
      some { title := some "Alpha", country := some "US", icon := none,
             installs := 0, revenue := 0 }) ∧
    ({ title := some "Alpha", country := some "US", icon := none,
       installs := 0, revenue := 0 : AppSalesRecord }.installs = 0 ∧
     { title := some "Alpha", country := some "US", icon := none,
       installs := 0, revenue := 0 : AppSalesRecord }.revenue = 0) :=
  ⟨by with_unfolding_all decide,
   C3_missing_column_zeroes noCurrencyHeader
     [[some "1", some "US", some "Alpha", some "2", some "0.99", some "1"]]
     [("USD", 1)] (by with_unfolding_all decide) (some "1") _
     (by with_unfolding_all decide)⟩

/-- Raw report text for one sold app, as getReport would return it. -/
def dayTextOneApp : String :=
  "Apple Identifier\tCountry Code\tCurrency of Proceeds\tTitle\tUnits\tDeveloper Proceeds\tProduct Type Identifier\n1\tUS\tUSD\tAlpha\t2\t0.99\t1"

/-- C2 counterexample: with a current-day report that parses to a
non-empty mapping, a prior-day fetch answering NotYetPublished (code
210) makes getSalesForDate fail with the TypeError of
parseSalesReport(null, rates) instead of degrading that slot to an
empty mapping: line 101 of src/index.js feeds the null report straight
into parseSalesReport, which reads report.length. -/
theorem C2_counterexample_notyet_aborts :
    parseSalesReport (splitReport dayTextOneApp) [("USD", 1)] ≠ [] ∧
    getSalesForDate (.ok dayTextOneApp)
        (.err 210 "Report is not available yet.") (.err 213 "There were no sales.")
        [("USD", 1)] =
      .error "TypeError: Cannot read property length of null" := by
  exact ⟨by with_unfolding_all decide, by with_unfolding_all rfl⟩

/-- C2 amended: a comparison-date fetch that answers NoSales (code 213)
is degraded to the empty mapping and the three-way snapshot is still
returned; a comparison-date fetch that answers NotYetPublished (codes
210-212, a null report) instead aborts the run with a TypeError from
parseSalesReport reading null.length. -/
theorem C2_comparison_slots (dayText : String) (rates : Rates)
    (m1 m2 m3 : String) (pw : ReporterResult)
    (hday : parseSalesReport (splitReport dayText) rates ≠ []) :
    getSalesForDate (.ok dayText) (.err ERR_NO_SALES m1) (.err ERR_NO_SALES m2) rates =
      .ok (some { day := parseSalesReport (splitReport dayText) rates,
                  prevDay := some [], prevWeek := some [] }) ∧
    getSalesForDate (.ok dayText) (.err 210 m3) pw rates =
      .error "TypeError: Cannot read property length of null" := by
  obtain ⟨a, l, hal⟩ := List.exists_cons_of_ne_nil hday
  have h213 : ERR_NO_SALES ∉ NO_REPORT_ERRORS := by decide
  have h210 : (210 : Int) ∈ NO_REPORT_ERRORS := by decide
  have hnil : ∀ rs : Rates, parseSalesReport [] rs = [] := fun _ => rfl
  constructor
  · simp [getSalesForDate, getDailySales, parseMaybeNull, hal, h213, hnil]
  · simp [getSalesForDate, getDailySales, parseMaybeNull, hal, h210]

theorem C2_comparison_slots_witness :
    (getSalesForDate (.ok dayTextOneApp) (.err ERR_NO_SALES "There were no sales.")
        (.err ERR_NO_SALES "There were no sales.") [("USD", 1)] =
      .ok (some { day := parseSalesReport (splitReport dayTextOneApp) [("USD", 1)],
                  prevDay := some [], prevWeek := some [] })) ∧
    getSalesForDate (.ok dayTextOneApp) (.err 210 "Report is not available yet.")
        (.ok dayTextOneApp) [("USD", 1)] =
      .error "TypeError: Cannot read property length of null" :=
  C2_comparison_slots dayTextOneApp [("USD", 1)]
    "There were no sales." "There were no sales." "Report is not available yet."
    (.ok dayTextOneApp) (by with_unfolding_all decide)

/-- Day snapshot of the C4 scenario: one app, 100 installs, no revenue. -/
def goodScenarioDay : AppMap :=
  [(some "1", { title := some "Alpha", country := some "US", icon := none,
                installs := 100, revenue := 0 })]

/-- Prior-day snapshot of the C4 scenario: 80 installs, no revenue. -/
def goodScenarioPrevDay : AppMap :=
  [(some "1", { title := some "Alpha", country := some "US", icon := none,
                installs := 80, revenue := 0 })]

/-- C4: a per-app section is coloured good exactly when nonzero current
revenue beats prior-day revenue, or revenue is zero and current installs
beat prior-day installs; the scenario app (installs 100, revenue 0,
prior-day installs 80) is good and its field set omits the Revenue field,
and the Revenue field and its percent companion exist exactly when the
current-period revenue is nonzero. -/
theorem C4_good_classification :
    (∀ (day prevDay prevWeek : AppMap) (k : Cell),
      ((appSection day prevDay prevWeek k).color = "good" ↔
        (((getRecordOr0 day k).revenue ≠ 0 ∧
            (getRecordOr0 prevDay k).revenue < (getRecordOr0 day k).revenue) ∨
         ((getRecordOr0 day k).revenue = 0 ∧
            (getRecordOr0 prevDay k).installs < (getRecordOr0 day k).installs)))) ∧
    (appSection goodScenarioDay goodScenarioPrevDay [] (some "1")).color = "good" ∧
    (appSection goodScenarioDay goodScenarioPrevDay [] (some "1")).fields =
      [{ title := some "Downloads", value := "100", short := true },
       { title := none, value := "+25.0% day / +100.0% week", short := true }] ∧
    (∀ i r pdi pdr pwi pwr : ℚ,
      ((∃ f ∈ createFields i r pdi pdr pwi pwr, f.title = some "Revenue") ↔ r ≠ 0) ∧
      (createFields i r pdi pdr pwi pwr).length = if r = 0 then 2 else 4) := by
  have hdg : ("danger" : String) ≠ "good" := by decide
  have hdr : (some "Downloads" : Option String) ≠ some "Revenue" := by decide
  refine ⟨?_, by with_unfolding_all decide, by with_unfolding_all decide, ?_⟩
  · intro day prevDay prevWeek k
    by_cases h1 : (getRecordOr0 day k).revenue = 0
    · by_cases h2 : (getRecordOr0 prevDay k).installs < (getRecordOr0 day k).installs <;>
        simp [appSection, h1, h2, hdg]
    · by_cases h2 : (getRecordOr0 prevDay k).revenue < (getRecordOr0 day k).revenue <;>
        simp [appSection, h1, h2, hdg]
  · intro i r pdi pdr pwi pwr
    by_cases hr : r = 0 <;> simp [createFields, hr, hdr]

/-- C5: the rendered percent change is +100.0% whenever the baseline is
zero, and otherwise the sign-prefixed one-decimal thousands-separated
rendering of (v - b) / abs b, for both the day and the week slot; the
three cited instances evaluate as claimed. -/
theorem C5_percent_change (v b w : ℚ) :
    (formatPercentsField v b w =
      (if b = 0 then "+100.0%" else formatPercent ((v - b) / |b|)) ++ " day / " ++
      (if w = 0 then "+100.0%" else formatPercent ((v - w) / |w|)) ++ " week") ∧
    formatPercentsField 50 0 0 = "+100.0% day / +100.0% week" ∧
    formatPercentsField 50 100 100 = "-50.0% day / -50.0% week" ∧
    formatPercentsField 150 100 100 = "+50.0% day / +50.0% week" := by
  have h1 : formatPercent 1 = "+100.0%" := by with_unfolding_all decide
  refine ⟨?_, by with_unfolding_all decide, by with_unfolding_all decide,
    by with_unfolding_all decide⟩
  by_cases hb : b = 0 <;> by_cases hw : w = 0 <;>
    simp [formatPercentsField, hb, hw, h1]

/-- Report-style decimal 1234.5 as an exact rational. -/
def qNum1234p5 : ℚ := 2469 / 2

/-- C6 counterexample: toFixed(0) rounds to the nearest integer with
half away from zero, so formatCurrency(1234.5) is the string with 1235,
not the 1234 of the claim. -/
theorem C6_counterexample_rounds_up :
    formatCurrency qNum1234p5 = "$1,235" ∧ formatCurrency qNum1234p5 ≠ "$1,234" := by
  exact ⟨by with_unfolding_all decide, by with_unfolding_all decide⟩

/-- C6 amended: the sign prefix appears exactly for negative values,
followed by the dollar sign and the thousands-grouped magnitude rounded
to 0 decimal places when the absolute value is at least 100 and 2
otherwise; 1234.5 renders as the rounded 1,235 while the sub-hundred
values keep their two decimals. -/
theorem C6_currency_format (v : ℚ) :
    (∃ rest : String, formatCurrency v = (if v < 0 then "-$" else "$") ++ rest) ∧
    formatCurrency qNum1234p5 = "$1,235" ∧
    formatCurrency (42.5 : ℚ) = "$42.50" ∧
    formatCurrency (-5.2 : ℚ) = "-$5.20" ∧
    formatCurrency (100 : ℚ) = "$100" ∧
    formatCurrency (99.5 : ℚ) = "$99.50" := by
  have hm : ("-" ++ "$" : String) = "-$" := rfl
  have he : ("" ++ "$" : String) = "$" := rfl
  refine ⟨?_, by with_unfolding_all decide, by with_unfolding_all decide,
    by with_unfolding_all decide, by with_unfolding_all decide,
    by with_unfolding_all decide⟩
  refine ⟨groupDigitString (toFixedQ |v| (if 100 ≤ |v| then 0 else 2)), ?_⟩
  by_cases hv : v < 0 <;> simp [formatCurrency, hv, hm, he]

theorem perm_orderedInsertB (le : Cell → Cell → Bool) (x : Cell) (l : List Cell) :
    (orderedInsertB le x l).Perm (x :: l) := by
  induction l with
  | nil => exact List.Perm.refl _
  | cons y ys ih =>
    by_cases h : le x y
    · simp [orderedInsertB, h]
    · simp only [orderedInsertB, h, if_false]
      exact (ih.cons y).trans (List.Perm.swap x y ys)

theorem perm_sortByB (le : Cell → Cell → Bool) (l : List Cell) :
    (sortByB le l).Perm l := by
  induction l with
  | nil => exact List.Perm.refl _
  | cons x xs ih =>
    exact (perm_orderedInsertB le x (sortByB le xs)).trans (ih.cons x)

theorem length_sortByB (le : Cell → Cell → Bool) (l : List Cell) :
    (sortByB le l).length = l.length :=
  (perm_sortByB le l).length_eq

/-- Sum of the installs of the records at the given keys (0 for an
absent key), the accumulation the Totals section performs. -/
def totalInstallsOver (m : AppMap) (keys : List Cell) : ℚ :=
  (keys.map (fun k => (getRecordOr0 m k).installs)).sum

/-- Sum of the revenue of the records at the given keys (0 for an
absent key). -/
def totalRevenueOver (m : AppMap) (keys : List Cell) : ℚ :=
  (keys.map (fun k => (getRecordOr0 m k).revenue)).sum

/-- Shared shape lemma for a non-empty day mapping: the message is the
Totals attachment in front of the possibly truncated per-app sections. -/
theorem buildSlackMessage_shape (day prevDay prevWeek : AppMap) (dateStr : String)
    (h : objKeys day ≠ []) :
    (buildSlackMessage day prevDay prevWeek dateStr).sectionCount =
      min (objKeys day).length MAX_ATTACHMENTS + 1 ∧
    (buildSlackMessage day prevDay prevWeek dateStr).firstTitle = some (some "Totals") ∧
    (buildSlackMessage day prevDay prevWeek dateStr).headFields =
      some (createFields
        (totalInstallsOver day (objKeys day)) (totalRevenueOver day (objKeys day))
        (totalInstallsOver prevDay (objKeys day)) (totalRevenueOver prevDay (objKeys day))
        (totalInstallsOver prevWeek (objKeys day)) (totalRevenueOver prevWeek (objKeys day))) := by
  have hne : (objKeys day).isEmpty = false := by
    cases hobj : objKeys day with
    | nil => exact absurd hobj h
    | cons a t => rfl
  have hsum : ∀ f : Cell → ℚ,
      ((sortByB (fun a b =>
        cellLE (getRecordOr0 day a).title (getRecordOr0 day b).title) (objKeys day)).map f).sum
        = ((objKeys day).map f).sum :=
    fun f => ((perm_sortByB _ (objKeys day)).map f).sum_eq
  refine ⟨?_, ?_, ?_⟩
  · simp only [buildSlackMessage, hne, Bool.false_eq_true, if_false,
      SlackMessage.sectionCount, List.length_cons]
    split
    · rename_i hgt
      simp only [List.length_take, List.length_map, length_sortByB] at hgt ⊢
      omega
    · rename_i hgt
      simp only [List.length_map, length_sortByB] at hgt ⊢
      omega
  · simp [buildSlackMessage, hne, SlackMessage.firstTitle]
  · simp only [buildSlackMessage, hne, Bool.false_eq_true, if_false,
      SlackMessage.headFields, List.head?_cons, Option.map_some]
    rw [totalInstallsOver, totalRevenueOver, totalInstallsOver, totalRevenueOver,
      totalInstallsOver, totalRevenueOver]
    simp only [hsum]
    rfl

/-- Day mapping of 25 distinct apps, one install each, no revenue. -/
def day25 : AppMap :=
  (List.range 25).map (fun i =>
    (some (toString i),
     { title := some (toString i), country := some "US", icon := none,
       installs := 1, revenue := 0 }))

/-- C7: a non-empty day snapshot yields min(number of apps, 20) per-app
sections plus exactly one Totals section prepended first, hence never
more than 21 sections, and the snapshot of 25 distinct apps yields
exactly 21; the excess drops silently since buildSlackMessage is total. -/
theorem C7_section_cap (day prevDay prevWeek : AppMap) (dateStr : String)
    (h : objKeys day ≠ []) :
    (buildSlackMessage day prevDay prevWeek dateStr).sectionCount =
      min (objKeys day).length MAX_ATTACHMENTS + 1 ∧
    (buildSlackMessage day prevDay prevWeek dateStr).sectionCount ≤ MAX_ATTACHMENTS + 1 ∧
    (buildSlackMessage day prevDay prevWeek dateStr).firstTitle = some (some "Totals") ∧
    (buildSlackMessage day25 [] [] "January 1, 2018").sectionCount = 21 := by
  obtain ⟨hc, ht, _⟩ := buildSlackMessage_shape day prevDay prevWeek dateStr h
  refine ⟨hc, by rw [hc]; omega, ht, ?_⟩
  obtain ⟨hc25, _, _⟩ :=
    buildSlackMessage_shape day25 [] [] "January 1, 2018" (by with_unfolding_all decide)
  rw [hc25]
  have h25 : (objKeys day25).length = 25 := by with_unfolding_all decide
  rw [h25]
  rfl

theorem C7_section_cap_witness :
    (buildSlackMessage day25 [] [] "January 1, 2018").sectionCount =
      min (objKeys day25).length MAX_ATTACHMENTS + 1 ∧
    (buildSlackMessage day25 [] [] "January 1, 2018").sectionCount ≤ MAX_ATTACHMENTS + 1 ∧
    (buildSlackMessage day25 [] [] "January 1, 2018").firstTitle = some (some "Totals") ∧
    (buildSlackMessage day25 [] [] "January 1, 2018").sectionCount = 21 :=
  C7_section_cap day25 [] [] "January 1, 2018" (by with_unfolding_all decide)

/-- C10: the Totals section carries the six sums accumulated over every
app identifier of the day mapping, not only the 20 displayed ones: the
25-app snapshot with one install per app shows 25 Totals downloads even
though only 20 per-app sections (plus Totals, 21 sections) are emitted. -/
theorem C10_totals_whole_day (day prevDay prevWeek : AppMap) (dateStr : String)
    (h : objKeys day ≠ []) :
    (buildSlackMessage day prevDay prevWeek dateStr).headFields =
      some (createFields
        (totalInstallsOver day (objKeys day)) (totalRevenueOver day (objKeys day))
        (totalInstallsOver prevDay (objKeys day)) (totalRevenueOver prevDay (objKeys day))
        (totalInstallsOver prevWeek (objKeys day)) (totalRevenueOver prevWeek (objKeys day))) ∧
    (buildSlackMessage day25 [] [] "January 1, 2018").headFields =
      some [{ title := some "Downloads", value := "25", short := true },
            { title := none, value := "+100.0% day / +100.0% week", short := true }] ∧
    (buildSlackMessage day25 [] [] "January 1, 2018").sectionCount = 21 := by
  obtain ⟨_, _, hf⟩ := buildSlackMessage_shape day prevDay prevWeek dateStr h
  refine ⟨hf, ?_, ?_⟩
  · obtain ⟨_, _, hf25⟩ :=
      buildSlackMessage_shape day25 [] [] "January 1, 2018" (by with_unfolding_all decide)
    rw [hf25]
    with_unfolding_all decide
  · obtain ⟨hc25, _, _⟩ :=
      buildSlackMessage_shape day25 [] [] "January 1, 2018" (by with_unfolding_all decide)
    rw [hc25]
    with_unfolding_all decide

theorem C10_totals_whole_day_witness :
    (buildSlackMessage day25 [] [] "January 1, 2018").headFields =
      some (createFields
        (totalInstallsOver day25 (objKeys day25)) (totalRevenueOver day25 (objKeys day25))
        (totalInstallsOver [] (objKeys day25)) (totalRevenueOver [] (objKeys day25))
        (totalInstallsOver [] (objKeys day25)) (totalRevenueOver [] (objKeys day25))) ∧
    (buildSlackMessage day25 [] [] "January 1, 2018").headFields =
      some [{ title := some "Downloads", value := "25", short := true },
            { title := none, value := "+100.0% day / +100.0% week", short := true }] ∧
    (buildSlackMessage day25 [] [] "January 1, 2018").sectionCount = 21 :=
  C10_totals_whole_day day25 [] [] "January 1, 2018" (by with_unfolding_all decide)
